import Mathlib

/-!
Shallow embedding of `app.py` (Real-time ELT demo, USGS earthquake stream).

The program is a single Streamlit script:
  Extract (fetch_usgs) → Load (concat + drop_duplicates keep last) →
  Transform (hour / magnitude bucket / depth bucket via pd.cut) →
  Visualize (empty gate) → Agents (analysis_agent, strategy_agent).

Python/pandas values are modelled as follows: JSON values as `JVal`,
dataframe cells as `PVal` (with `na` for NaN/NaT/None), numbers as `ℚ`
(the claims under study are about which values flow where, not about
floating-point rounding), datetimes as rational seconds since the epoch.
Dynamic-type errors (`AttributeError`, `TypeError`, `KeyError`) are
modelled with `Except String`.
-/

/-- A JSON value, as delivered by `r.json()` in `fetch_usgs`. -/
inductive JVal where
  | null : JVal
  | bool : Bool → JVal
  | num : ℚ → JVal
  | str : String → JVal
  | arr : List JVal → JVal
  | obj : List (String × JVal) → JVal

mutual

def JVal.decEq : (a b : JVal) → Decidable (a = b)
  | .null, .null => .isTrue rfl
  | .bool a, .bool b =>
    if h : a = b then .isTrue (by rw [h]) else .isFalse (by intro hc; injection hc; contradiction)
  | .num a, .num b =>
    if h : a = b then .isTrue (by rw [h]) else .isFalse (by intro hc; injection hc; contradiction)
  | .str a, .str b =>
    if h : a = b then .isTrue (by rw [h]) else .isFalse (by intro hc; injection hc; contradiction)
  | .arr a, .arr b =>
    match JVal.decEqList a b with
    | .isTrue h => .isTrue (by rw [h])
    | .isFalse h => .isFalse (by intro hc; injection hc; contradiction)
  | .obj a, .obj b =>
    match JVal.decEqKV a b with
    | .isTrue h => .isTrue (by rw [h])
    | .isFalse h => .isFalse (by intro hc; injection hc; contradiction)
  | .null, .bool _ | .null, .num _ | .null, .str _ | .null, .arr _ | .null, .obj _
  | .bool _, .null | .bool _, .num _ | .bool _, .str _ | .bool _, .arr _ | .bool _, .obj _
  | .num _, .null | .num _, .bool _ | .num _, .str _ | .num _, .arr _ | .num _, .obj _
  | .str _, .null | .str _, .bool _ | .str _, .num _ | .str _, .arr _ | .str _, .obj _
  | .arr _, .null | .arr _, .bool _ | .arr _, .num _ | .arr _, .str _ | .arr _, .obj _
  | .obj _, .null | .obj _, .bool _ | .obj _, .num _ | .obj _, .str _ | .obj _, .arr _ =>
    .isFalse (by intro hc; exact JVal.noConfusion hc)

def JVal.decEqList : (a b : List JVal) → Decidable (a = b)
  | [], [] => .isTrue rfl
  | [], _ :: _ => .isFalse (by intro hc; exact List.noConfusion hc)
  | _ :: _, [] => .isFalse (by intro hc; exact List.noConfusion hc)
  | x :: xs, y :: ys =>
    match JVal.decEq x y, JVal.decEqList xs ys with
    | .isTrue h1, .isTrue h2 => .isTrue (by rw [h1, h2])
    | .isFalse h1, _ => .isFalse (by intro hc; injection hc; contradiction)
    | .isTrue _, .isFalse h2 => .isFalse (by intro hc; injection hc; contradiction)

def JVal.decEqKV : (a b : List (String × JVal)) → Decidable (a = b)
  | [], [] => .isTrue rfl
  | [], _ :: _ => .isFalse (by intro hc; exact List.noConfusion hc)
  | _ :: _, [] => .isFalse (by intro hc; exact List.noConfusion hc)
  | (k, v) :: xs, (k', v') :: ys =>
    match String.decEq k k', JVal.decEq v v', JVal.decEqKV xs ys with
    | .isTrue h0, .isTrue h1, .isTrue h2 => .isTrue (by rw [h0, h1, h2])
    | .isFalse h0, _, _ =>
      .isFalse (by intro hc; injection hc with hp hq; injection hp; contradiction)
    | .isTrue _, .isFalse h1, _ =>
      .isFalse (by intro hc; injection hc with hp hq; injection hp; contradiction)
    | .isTrue _, .isTrue _, .isFalse h2 =>
      .isFalse (by intro hc; injection hc; contradiction)

end

instance : DecidableEq JVal := JVal.decEq

namespace JVal

/-- Python truthiness (`if x:`): `None`, `0`, `""`, `[]` and `\x7b\x7d` are falsy. -/
def truthy : JVal → Bool
  | .null => false
  | .bool b => b
  | .num q => q ≠ 0
  | .str s => s ≠ ""
  | .arr l => !l.isEmpty
  | .obj l => !l.isEmpty

end JVal

/-- `dict.get(k, default)` on a parsed-JSON value: keys bind last-wins (as in
Python's `json` module), a missing key yields the default, and `.get` on a
non-dict raises `AttributeError`. -/
def pyGet (v : JVal) (k : String) (dflt : JVal) : Except String JVal :=
  match v with
  | .obj kvs => .ok ((kvs.reverse.lookup k).getD dflt)
  | _ => .error "AttributeError"

/-- Python `len(x)` for the shapes that support it. -/
def pyLen (v : JVal) : Except String Nat :=
  match v with
  | .arr l => .ok l.length
  | .str s => .ok s.length
  | .obj l => .ok l.length
  | _ => .error "TypeError"

/-- Python `x[i]` for a list, at a nonnegative index known to be in range. -/
def pyIndex (v : JVal) (i : Nat) : Except String JVal :=
  match v with
  | .arr l => match l.get? i with
    | some x => .ok x
    | none => .error "IndexError"
  | _ => .error "TypeError"

instance {ε α : Type} [DecidableEq ε] [DecidableEq α] : DecidableEq (Except ε α) :=
  fun a b =>
    match a, b with
    | .ok x, .ok y =>
      if h : x = y then .isTrue (by rw [h])
      else .isFalse (by intro hc; injection hc; contradiction)
    | .error x, .error y =>
      if h : x = y then .isTrue (by rw [h])
      else .isFalse (by intro hc; injection hc; contradiction)
    | .ok _, .error _ => .isFalse (by intro hc; exact Except.noConfusion hc)
    | .error _, .ok _ => .isFalse (by intro hc; exact Except.noConfusion hc)

/-! ## fetch_usgs: row construction (app.py lines 44-61) -/

/-- One raw record, as built row-by-row inside the `for f in features` loop
of `fetch_usgs` before any dtype coercion.  `time_utc` is the parsed
timestamp in seconds since the epoch (`None` when `props.get("time")` is
falsy, exactly as in `ts = ... if ts_ms else None`). -/
structure RawRow where
  id : JVal
  time_utc : Option ℚ
  place : JVal
  mag : JVal
  url : JVal
  status : JVal
  tsunami : JVal
  lon : JVal
  lat : JVal
  depth_km : JVal
  deriving DecidableEq

/-- `datetime.fromtimestamp(ts_ms / 1000, tz=timezone.utc)` where `ts_ms` must
be a number (`/ 1000` raises `TypeError` on non-numbers).  The datetime is
kept as rational seconds since the epoch. -/
def parseTimestamp (tsMs : JVal) : Except String ℚ :=
  match tsMs with
  | .num q => .ok (q / 1000)
  | _ => .error "TypeError"

/-- The body of the `for f in features:` loop in `fetch_usgs`:

    props = f.get("properties", \x7b\x7d)
    geom = f.get("geometry", \x7b\x7d) or \x7b\x7d
    coords = geom.get("coordinates", [None, None, None])
    ts_ms = props.get("time")
    ts = datetime.fromtimestamp(ts_ms / 1000, tz=timezone.utc) if ts_ms else None
    rows.append(\x7b ... \x7d)
-/
def rowOfFeature (f : JVal) : Except String RawRow := do
  let props ← pyGet f "properties" (.obj [])
  let geom0 ← pyGet f "geometry" (.obj [])
  let geom := if geom0.truthy then geom0 else .obj []
  let coords ← pyGet geom "coordinates" (.arr [.null, .null, .null])
  let tsMs ← pyGet props "time" .null
  let ts ← if tsMs.truthy then (parseTimestamp tsMs).map some else pure none
  let fid ← pyGet f "id" .null
  let place ← pyGet props "place" .null
  let mag ← pyGet props "mag" .null
  let url ← pyGet props "url" .null
  let status ← pyGet props "status" .null
  let tsunami ← pyGet props "tsunami" .null
  let n ← pyLen coords
  let lon ← if 0 < n then pyIndex coords 0 else pure .null
  let lat ← if 1 < n then pyIndex coords 1 else pure .null
  let depth ← if 2 < n then pyIndex coords 2 else pure .null
  pure { id := fid, time_utc := ts, place := place, mag := mag, url := url,
         status := status, tsunami := tsunami, lon := lon, lat := lat, depth_km := depth }

/-! ## fetch_usgs: numeric coercion (app.py lines 62-68) -/

/-- Numeric value of a nonempty all-digit character list. -/
def digitsVal : List Char → Option ℕ
  | [] => none
  | cs => cs.foldl (fun acc c =>
      match acc with
      | none => none
      | some n => if c.isDigit then some (10 * n + (c.toNat - 48)) else none) (some 0)

/-- Decimal-string parsing as done by pandas numeric coercion: optional sign,
then digits with an optional fractional part (at least one digit overall).
Strings outside this shape are not coercible. -/
def parsePyFloat (s : String) : Option ℚ :=
  let cs := s.data
  let signAndRest : ℚ × List Char :=
    match cs with
    | '-' :: t => (-1, t)
    | '+' :: t => (1, t)
    | t => (1, t)
  let sign := signAndRest.1
  let body := signAndRest.2
  let intPart := body.takeWhile (· ≠ '.')
  let rest := body.dropWhile (· ≠ '.')
  match rest with
  | [] =>
    match digitsVal intPart with
    | some n => some (sign * n)
    | none => none
  | _ :: frac =>
    if intPart.isEmpty && frac.isEmpty then none
    else if intPart.isEmpty then
      match digitsVal frac with
      | some m => some (sign * ((m : ℚ) / (10 : ℚ) ^ frac.length))
      | none => none
    else if frac.isEmpty then
      match digitsVal intPart with
      | some n => some (sign * n)
      | none => none
    else
      match digitsVal intPart, digitsVal frac with
      | some n, some m => some (sign * ((n : ℚ) + (m : ℚ) / (10 : ℚ) ^ frac.length))
      | _, _ => none

/-- `pd.to_numeric(x, errors='coerce')` on one cell: numbers pass through,
booleans coerce to 0/1, numeric strings parse, everything else (None and
non-numeric values; container values are treated as non-coercible) becomes
NaN, modelled as `none`. -/
def toNumericCoerce : JVal → Option ℚ
  | .num q => some q
  | .bool b => some (if b then 1 else 0)
  | .str s => parsePyFloat s
  | .null => none
  | .arr _ => none
  | .obj _ => none

/-- `pd.to_numeric(x, errors='coerce').fillna(0.0)` on one cell. -/
def coerceFillZero (v : JVal) : ℚ := (toNumericCoerce v).getD 0

/-- A normalized record of the session store: after `fetch_usgs` ensures
types, `mag` and `depth_km` are numeric (NaNs already filled with 0.0). -/
structure Row where
  id : JVal
  time_utc : Option ℚ
  place : JVal
  mag : ℚ
  url : JVal
  status : JVal
  tsunami : JVal
  lon : JVal
  lat : JVal
  depth_km : ℚ
  deriving DecidableEq

/-- The dtype-coercion block of `fetch_usgs` applied to one row:
`df['mag'] = pd.to_numeric(df['mag'], errors='coerce').fillna(0.0)` and the
same for `depth_km` (`pd.to_datetime` on the already-parsed timestamps is
the identity in this model). -/
def normalizeRow (r : RawRow) : Row :=
  { id := r.id, time_utc := r.time_utc, place := r.place,
    mag := coerceFillZero r.mag, url := r.url, status := r.status,
    tsunami := r.tsunami, lon := r.lon, lat := r.lat,
    depth_km := coerceFillZero r.depth_km }

/-- `fetch_usgs` from the `features` list of the decoded JSON body onwards:
build one raw row per feature, then (`if not df.empty:`) coerce the numeric
columns. -/
def fetch_usgs (features : List JVal) : Except String (List Row) := do
  let raws ← features.mapM rowOfFeature
  if raws.isEmpty then pure [] else pure (raws.map normalizeRow)

/-! ## Load: merge into the session store (app.py lines 121-130) -/

/-- `combined.drop_duplicates(subset=["id"], keep="last")`: a row survives
iff no later row carries the same `id`; the surviving rows keep their
original relative order. -/
def keepLastDedup : List Row → List Row
  | [] => []
  | r :: rs =>
    if rs.any (fun s => s.id = r.id) then keepLastDedup rs
    else r :: keepLastDedup rs

/-- The Load step of the fetch handler:

    if store.empty:
        combined = df_new
    else:
        combined = pd.concat([store, df_new], ignore_index=True)
        combined = combined.drop_duplicates(subset=["id"], keep="last").reset_index(drop=True)
-/
def loadStep (store dfNew : List Row) : List Row :=
  if store.isEmpty then dfNew
  else keepLastDedup (store ++ dfNew)

/-- The user-visible messages emitted by the script, with the values they
interpolate carried structurally (string formatting is abstracted). -/
inductive Msg where
  | info : String → Msg
  | error : String → Msg
  | fetchSuccess : Nat → Nat → Msg
  | transformDone : Nat → Nat → Msg
  | storeCleared : Msg
  deriving DecidableEq

/-- The whole Extract & Load handler (lines 113-132): the network call and
normalization are the `Except`-valued `netResult >>= fetch_usgs`; on success
the store is merged and `last_fetch` set to `now`, on any exception the
message is shown via `st.error(f"Fetch failed: ...")` and the state is left
alone.  Result: (new store, new last_fetch, message). -/
def extractLoadStep (store : List Row) (lastFetch : Option ℚ) (now : ℚ)
    (netResult : Except String (List JVal)) : List Row × Option ℚ × Msg :=
  match netResult.bind fetch_usgs with
  | .error e => (store, lastFetch, .error ("Fetch failed: " ++ e))
  | .ok dfNew =>
    (loadStep store dfNew, some now,
     .fetchSuccess dfNew.length (loadStep store dfNew).length)

/-! ## Transform step (app.py lines 146-161) -/

/-- A pandas cell as seen by the Transform step: NaN/NaT/None, a number, a
string (also used for categorical bucket labels), a datetime (rational
seconds since the epoch), or a boolean. -/
inductive PVal where
  | na : PVal
  | num : ℚ → PVal
  | str : String → PVal
  | time : ℚ → PVal
  | boolv : Bool → PVal
  deriving DecidableEq

/-- A dataframe, column-oriented: column name paired with its cells. -/
abbrev DF := List (String × List PVal)

/-- `df.empty`: no columns, or columns with no rows. -/
def dfEmpty : DF → Bool
  | [] => true
  | (_, vs) :: _ => vs.isEmpty

/-- `df[name]` (first column of that name). -/
def getCol (df : DF) (name : String) : Option (List PVal) :=
  df.lookup name

/-- `df[name] = vs`: overwrite the column in place when it exists, else
append it on the right. -/
def setCol (df : DF) (name : String) (vs : List PVal) : DF :=
  if df.any (fun p => p.1 = name) then
    df.map (fun p => if p.1 = name then (name, vs) else p)
  else df ++ [(name, vs)]

/-- `len(df)`: the number of rows (0 for a column-less frame). -/
def dfRowCount : DF → Nat
  | [] => 0
  | (_, vs) :: _ => vs.length

/-- Every column holds exactly `n` cells. -/
def Rectangular (df : DF) (n : Nat) : Prop :=
  ∀ p ∈ df, (p.2 : List PVal).length = n

/-- `pd.cut(x, bins, labels)` on one in-range value: label `i` is assigned
exactly when `bins[i] < x ≤ bins[i+1]`; values outside every bin get NaN
(`none`). -/
def cutLabel : List ℚ → List String → ℚ → Option String
  | lo :: hi :: bs, l :: ls, x =>
    if lo < x ∧ x ≤ hi then some l else cutLabel (hi :: bs) ls x
  | _, _, _ => none

/-- `pd.cut(df['mag'], bins=[-1,1,2,3,4,5,10], labels=["<1","1-2","2-3","3-4","4-5",">=5"])`
on one value. -/
def magBucket (x : ℚ) : Option String :=
  cutLabel [-1, 1, 2, 3, 4, 5, 10] ["<1", "1-2", "2-3", "3-4", "4-5", ">=5"] x

/-- `pd.cut(df['depth_km'], bins=[-1,10,50,200,1000], labels=["shallow","intermediate","deep","very_deep"])`
on one value. -/
def depthBucket (x : ℚ) : Option String :=
  cutLabel [-1, 10, 50, 200, 1000] ["shallow", "intermediate", "deep", "very_deep"] x

/-- Hour-of-day of a UTC timestamp given in seconds since the epoch. -/
def hourOfSeconds (t : ℚ) : ℤ := (Int.floor (t / 3600)) % 24

/-- `df['time_utc'].dt.hour` on one cell (NaT ↦ NaN). -/
def hourCell : PVal → PVal
  | .time t => .num (hourOfSeconds t)
  | _ => .na

/-- The `mag_bucket` column on one cell (out-of-range and NaN ↦ NaN). -/
def magBucketCell : PVal → PVal
  | .num q => match magBucket q with
    | some l => .str l
    | none => .na
  | _ => .na

/-- The `depth_bucket` column on one cell. -/
def depthBucketCell : PVal → PVal
  | .num q => match depthBucket q with
    | some l => .str l
    | none => .na
  | _ => .na

/-- The three feature-engineering assignments of the Transform step:

    df['hour_utc'] = df['time_utc'].dt.hour
    df['mag_bucket'] = pd.cut(df['mag'], ...)
    df['depth_bucket'] = pd.cut(df['depth_km'], ...)

a missing source column raises `KeyError`. -/
def transformCols (df : DF) : Except String DF :=
  match getCol df "time_utc" with
  | none => .error "KeyError: time_utc"
  | some ts =>
    let df1 := setCol df "hour_utc" (ts.map hourCell)
    match getCol df1 "mag" with
    | none => .error "KeyError: mag"
    | some ms =>
      let df2 := setCol df1 "mag_bucket" (ms.map magBucketCell)
      match getCol df2 "depth_km" with
      | none => .error "KeyError: depth_km"
      | some ds => .ok (setCol df2 "depth_bucket" (ds.map depthBucketCell))

/-- `df['lat'].isna().sum() + df['lon'].isna().sum()` (KeyError when a
column is missing). -/
def missingLoc (df : DF) : Except String Nat :=
  match getCol df "lat", getCol df "lon" with
  | some lats, some lons =>
    .ok ((lats.filter (fun v => v = PVal.na)).length
         + (lons.filter (fun v => v = PVal.na)).length)
  | _, _ => .error "KeyError"

/-- The whole `if st.button("Run Transform")` handler (lines 146-161):
empty store ⇒ `st.info` and no change; otherwise derive the feature
columns, report, and write the result back to the store; any exception ⇒
`st.error` and no change. -/
def runTransformAction (store : DF) : DF × Msg :=
  if dfEmpty store then (store, .info "Store is empty. Fetch events first.")
  else
    match (transformCols store).bind (fun df =>
        (missingLoc df).map (fun m => (df, m))) with
    | .ok (df, m) => (df, .transformDone (dfRowCount df) m)
    | .error e => (store, .error ("Transform failed: " ++ e))

/-! ## Visualize step (app.py lines 174-213) -/

/-- What the Visualize section renders: the informational message for an
empty store, or the chart block. -/
inductive VisOutcome where
  | infoMsg : String → VisOutcome
  | charts : VisOutcome
  deriving DecidableEq

/-- `if st.session_state.store.empty: st.info(...) else: ...charts...` -/
def visualizeSection (store : DF) : VisOutcome :=
  if dfEmpty store then
    .infoMsg "No events to visualize. Fetch and transform events first."
  else .charts

/-! ## Agents (app.py lines 221-258) -/

/-- The thoughts emitted by `analysis_agent`, with the interpolated values
carried structurally. -/
inductive AThought where
  | header : AThought
  | summary : Nat → ℚ → ℚ → AThought
  | strongCount : Nat → AThought
  deriving DecidableEq

/-- `df['mag'].mean()` for a nonempty numeric column. -/
def pdMean (xs : List ℚ) : ℚ := xs.sum / xs.length

/-- `df['mag'].max()` for a nonempty numeric column. -/
def pdMax : List ℚ → ℚ
  | [] => 0
  | x :: xs => xs.foldl max x

/-- `analysis_agent(df)` (lines 221-231): summary statistics and the
`strong = df[df['mag'] >= 5.0]` subset. -/
def analysis_agent (df : List Row) : List AThought × List Row :=
  let total := df.length
  let avg_mag : ℚ := if total > 0 then pdMean (df.map Row.mag) else 0
  let max_mag : ℚ := if total > 0 then pdMax (df.map Row.mag) else 0
  let strong := df.filter (fun r => 5 ≤ r.mag)
  ([.header, .summary total avg_mag max_mag, .strongCount strong.length], strong)

/-- The thoughts emitted by `strategy_agent`. -/
inductive SThought where
  | noStrong : SThought
  | alertThought : JVal → ℚ → SThought
  deriving DecidableEq

/-- Python `str(...)` rendering of a field used in an f-string; container
values are abbreviated. -/
def pyShow : JVal → String
  | .null => "None"
  | .bool b => if b then "True" else "False"
  | .num q => toString q
  | .str s => s
  | .arr _ => "[...]"
  | .obj _ => "\x7b...\x7d"

/-- Insertion into a list sorted by descending `mag`. -/
def insertDesc (r : Row) : List Row → List Row
  | [] => [r]
  | s :: ss => if s.mag ≤ r.mag then r :: s :: ss else s :: insertDesc r ss

/-- `strong_events.sort_values("mag", ascending=False)`. -/
def sortByMagDesc : List Row → List Row
  | [] => []
  | r :: rs => insertDesc r (sortByMagDesc rs)

/-- `strategy_agent(strong_events)` (lines 233-242): "Monitor" when the
strong set is empty, otherwise an alert for the place of the top row of the
descending-by-magnitude sort (`.iloc[0]`; the inner `[]` branch is
unreachable since sorting a nonempty frame is nonempty). -/
def strategy_agent (strong : List Row) : List SThought × String :=
  if strong.isEmpty then ([.noStrong], "Monitor")
  else
    match sortByMagDesc strong with
    | [] => ([.noStrong], "Monitor")
    | top :: _ =>
      ([.alertThought top.place top.mag], "Alert for " ++ pyShow top.place)

/-- What the `if st.button("Run Agents")` handler (lines 244-258) produces:
the informational message on an empty store, or the two agents' outputs and
the recommended action. -/
def runAgentsAction (store : List Row) :
    Msg ⊕ (List AThought × List Row × List SThought × String) :=
  if store.isEmpty then .inl (.info "No data to analyze. Fetch & transform first.")
  else
    let ares := analysis_agent store
    let sres := strategy_agent ares.2
    .inr (ares.1, ares.2, sres.1, sres.2)

/-! ## Concrete sample data -/

/-- A store row with id `e1` and magnitude 6. -/
def rowA : Row :=
  { id := .str "e1", time_utc := some 3600, place := .str "PlaceA", mag := 6, url := .null,
    status := .null, tsunami := .null, lon := .num 10, lat := .num 20, depth_km := 1 }

/-- A second row carrying the same id `e1` but magnitude 2. -/
def rowB : Row :=
  { id := .str "e1", time_utc := some 7200, place := .str "PlaceB", mag := 2, url := .null,
    status := .null, tsunami := .null, lon := .num 11, lat := .num 21, depth_km := 2 }

/-- A row with a distinct id `e2`. -/
def rowC : Row :=
  { id := .str "e2", time_utc := none, place := .null, mag := 5, url := .null,
    status := .null, tsunami := .null, lon := .null, lat := .null, depth_km := 30 }

/-- A well-formed USGS feature whose `mag` is the non-numeric string `"abc"`. -/
def sampleFeature : JVal :=
  .obj [("id", .str "x1"),
        ("properties", .obj [("mag", .str "abc"), ("place", .str "Somewhere"),
                             ("time", .num 0), ("depth", .null)]),
        ("geometry", .obj [("coordinates", .arr [.num 1, .num 2, .str "7.5"])])]

/-- A one-row dataframe with the fetched columns, as the store holds after a
fetch and before a transform. -/
def sampleDF : DF :=
  [("id", [.str "e1"]), ("time_utc", [.na]), ("place", [.str "PlaceA"]),
   ("mag", [.num 6]), ("url", [.na]), ("status", [.na]), ("tsunami", [.na]),
   ("lon", [.num 10]), ("lat", [.na]), ("depth_km", [.num 1])]

/-- The raw row that `rowOfFeature` builds from `sampleFeature`. -/
def sampleRaw : RawRow :=
  { id := .str "x1", time_utc := none, place := .str "Somewhere", mag := .str "abc",
    url := .null, status := .null, tsunami := .null, lon := .num 1, lat := .num 2,
    depth_km := .str "7.5" }

/-- The dataframe `transformCols` produces from `sampleDF`: the ten fetched
columns plus the three derived columns. -/
def sampleDFT : DF :=
  sampleDF ++ [("hour_utc", [.na]), ("mag_bucket", [.str ">=5"]),
               ("depth_bucket", [.str "shallow"])]

/-! ## Lemmas about the Load merge -/

theorem keepLastDedup_cons_dup {a : Row} {rs : List Row}
    (h : rs.any (fun s => decide (s.id = a.id)) = true) :
    keepLastDedup (a :: rs) = keepLastDedup rs := by
  simp [keepLastDedup, h]

theorem keepLastDedup_cons_new {a : Row} {rs : List Row}
    (h : rs.any (fun s => decide (s.id = a.id)) = false) :
    keepLastDedup (a :: rs) = a :: keepLastDedup rs := by
  simp [keepLastDedup, h]

theorem mem_of_mem_keepLastDedup {r : Row} :
    ∀ {rows : List Row}, r ∈ keepLastDedup rows → r ∈ rows := by
  intro rows
  induction rows with
  | nil => simp [keepLastDedup]
  | cons a rs ih =>
    cases hg : rs.any (fun s => decide (s.id = a.id)) with
    | true =>
      rw [keepLastDedup_cons_dup hg]
      intro h
      exact List.mem_cons_of_mem _ (ih h)
    | false =>
      rw [keepLastDedup_cons_new hg]
      intro h
      rcases List.mem_cons.mp h with h | h
      · exact h ▸ List.mem_cons_self _ _
      · exact List.mem_cons_of_mem _ (ih h)

theorem keepLastDedup_id_nodup :
    ∀ rows : List Row, (keepLastDedup rows).Pairwise (fun a b => a.id ≠ b.id) := by
  intro rows
  induction rows with
  | nil => simp [keepLastDedup]
  | cons a rs ih =>
    cases hg : rs.any (fun s => decide (s.id = a.id)) with
    | true => rw [keepLastDedup_cons_dup hg]; exact ih
    | false =>
      rw [keepLastDedup_cons_new hg]
      refine List.Pairwise.cons ?_ ih
      intro b hb heq
      have hbrs : b ∈ rs := mem_of_mem_keepLastDedup hb
      have : rs.any (fun s => decide (s.id = a.id)) = true :=
        List.any_eq_true.mpr ⟨b, hbrs, by simp [heq]⟩
      rw [hg] at this
      exact Bool.false_ne_true this

theorem filter_keepLastDedup (i : JVal) :
    ∀ rows : List Row,
      (keepLastDedup rows).filter (fun r => decide (r.id = i))
        = ((rows.filter (fun r => decide (r.id = i))).getLast?).toList := by
  intro rows
  induction rows with
  | nil => simp [keepLastDedup]
  | cons a rs ih =>
    cases hg : rs.any (fun s => decide (s.id = a.id)) with
    | true =>
      rw [keepLastDedup_cons_dup hg]
      rw [ih]
      by_cases ha : a.id = i
      · have : (rs.filter (fun r => decide (r.id = i))) ≠ [] := by
          rcases List.any_eq_true.mp hg with ⟨s, hs, hsid⟩
          have hsid' : s.id = a.id := of_decide_eq_true hsid
          have : s ∈ rs.filter (fun r => decide (r.id = i)) :=
            List.mem_filter.mpr ⟨hs, by simp [hsid', ha]⟩
          exact List.ne_nil_of_mem this
        rcases List.exists_cons_of_ne_nil this with ⟨b, l, hbl⟩
        rw [List.filter_cons_of_pos (by simp [ha]), hbl, List.getLast?_cons_cons]
      · rw [List.filter_cons_of_neg (by simp [ha])]
    | false =>
      rw [keepLastDedup_cons_new hg]
      by_cases ha : a.id = i
      · have hrs : rs.filter (fun r => decide (r.id = i)) = [] := by
          rw [List.filter_eq_nil_iff]
          intro s hs hsd
          have hsid : s.id = i := of_decide_eq_true hsd
          have : rs.any (fun t => decide (t.id = a.id)) = true :=
            List.any_eq_true.mpr ⟨s, hs, by simp [hsid, ha]⟩
          rw [hg] at this
          exact Bool.false_ne_true this
        have hded : (keepLastDedup rs).filter (fun r => decide (r.id = i)) = [] := by
          rw [ih, hrs]; rfl
        rw [List.filter_cons_of_pos (by simp [ha]),
            List.filter_cons_of_pos (by simp [ha]), hded, hrs]
        rfl
      · rw [List.filter_cons_of_neg (by simp [ha]),
            List.filter_cons_of_neg (by simp [ha])]
        exact ih

/-! ## C1: the Load merge keeps the most recently fetched row per id -/

/-- C1: for every id present in both the prior store and the freshly fetched
batch, the Load step keeps exactly one row for that id, namely the last
occurrence in the new batch (keep-last semantics). -/
theorem load_keeps_last_per_id (store batch : List Row) (i : JVal)
    (hs : ∃ r ∈ store, r.id = i) (hb : ∃ r ∈ batch, r.id = i) :
    (loadStep store batch).filter (fun r => decide (r.id = i))
      = ((batch.filter (fun r => decide (r.id = i))).getLast?).toList := by
  have hne : store.isEmpty = false := by
    rcases hs with ⟨r, hr, _⟩
    cases store with
    | nil => cases hr
    | cons _ _ => rfl
  have hbne : batch.filter (fun r => decide (r.id = i)) ≠ [] := by
    rcases hb with ⟨r, hr, hri⟩
    exact List.ne_nil_of_mem (List.mem_filter.mpr ⟨hr, by simp [hri]⟩)
  simp only [loadStep, hne, Bool.false_eq_true, if_false]
  rw [filter_keepLastDedup, List.filter_append,
      List.getLast?_append_of_ne_nil _ hbne]

/-- Witness for C1 at a concrete store and batch sharing the id `e1`. -/
theorem load_keeps_last_per_id_witness :
    (loadStep [rowA] [rowB]).filter (fun r => decide (r.id = .str "e1"))
      = (([rowB].filter (fun r => decide (r.id = .str "e1"))).getLast?).toList :=
  load_keeps_last_per_id [rowA] [rowB] (.str "e1")
    ⟨rowA, by simp, by decide⟩ ⟨rowB, by simp, by decide⟩

/-! ## C2: id uniqueness after the Load merge -/

/-- C2 as stated is false: with an empty prior store the Load step installs
the batch verbatim, so a batch holding two rows with the same id `e1`
yields a store in which that id occurs twice. -/
theorem load_empty_store_dup_ids_counterexample :
    ¬ (loadStep [] [rowA, rowB]).Pairwise (fun a b => a.id ≠ b.id) := by
  decide

/-- C2 (amended): the Load step guarantees at most one row per id whenever
the prior store is non-empty; when the prior store is empty, the result is
the new batch unchanged (duplicate ids in the batch included). -/
theorem load_unique_ids_amended (store batch : List Row) (h : store ≠ []) :
    (loadStep store batch).Pairwise (fun a b => a.id ≠ b.id)
      ∧ loadStep [] batch = batch := by
  have hne : store.isEmpty = false := by
    cases store with
    | nil => exact absurd rfl h
    | cons _ _ => rfl
  constructor
  · simp only [loadStep, hne, Bool.false_eq_true, if_false]
    exact keepLastDedup_id_nodup _
  · rfl

/-- Witness for C2 (amended) at a concrete non-empty store. -/
theorem load_unique_ids_amended_witness :
    (loadStep [rowA] [rowB, rowC]).Pairwise (fun a b => a.id ≠ b.id)
      ∧ loadStep [] [rowB, rowC] = [rowB, rowC] :=
  load_unique_ids_amended [rowA] [rowB, rowC] (by simp)

/-! ## C4: bucketing by pd.cut -/

/-- C4 as stated is false: not every numeric value receives a bucket label.
`pd.cut` leaves values outside the outermost bin edges unlabelled, so a
magnitude of 11 and a depth of 2000 get no bucket (NaN). -/
theorem bucket_totality_counterexample :
    magBucket 11 = none ∧ depthBucket 2000 = none := by
  decide

/-- C4 (amended): each bucketing function labels exactly the half-open
interval between consecutive bin edges (left-open, right-closed), and
values at or below the lowest edge or above the highest edge receive no
label: `mag_bucket` labels (-1,1], (1,2], (2,3], (3,4], (4,5], (5,10] and
`depth_bucket` labels (-1,10], (10,50], (50,200], (200,1000]. -/
theorem bucket_label_amended (x : ℚ) :
    magBucket x
      = (if -1 < x ∧ x ≤ 1 then some "<1"
         else if 1 < x ∧ x ≤ 2 then some "1-2"
         else if 2 < x ∧ x ≤ 3 then some "2-3"
         else if 3 < x ∧ x ≤ 4 then some "3-4"
         else if 4 < x ∧ x ≤ 5 then some "4-5"
         else if 5 < x ∧ x ≤ 10 then some ">=5"
         else none)
    ∧ depthBucket x
      = (if -1 < x ∧ x ≤ 10 then some "shallow"
         else if 10 < x ∧ x ≤ 50 then some "intermediate"
         else if 50 < x ∧ x ≤ 200 then some "deep"
         else if 200 < x ∧ x ≤ 1000 then some "very_deep"
         else none) := by
  constructor <;> simp [magBucket, depthBucket, cutLabel]

/-! ## C3: numeric coercion with null-filling in fetch_usgs -/

/-- C3: on a successfully normalized feature list, `fetch_usgs` returns the
raw rows with `mag` and `depth_km` coerced: a cell that is missing or not
coercible to a number becomes exactly 0.0, and every other cell equals its
numeric coercion. -/
theorem fetch_usgs_coercion (features : List JVal) (raws : List RawRow)
    (h : features.mapM rowOfFeature = Except.ok raws) :
    fetch_usgs features = .ok (raws.map normalizeRow)
    ∧ ∀ r ∈ raws,
        (toNumericCoerce r.mag = none → (normalizeRow r).mag = 0)
        ∧ (∀ q, toNumericCoerce r.mag = some q → (normalizeRow r).mag = q)
        ∧ (toNumericCoerce r.depth_km = none → (normalizeRow r).depth_km = 0)
        ∧ (∀ q, toNumericCoerce r.depth_km = some q → (normalizeRow r).depth_km = q) := by
  constructor
  · rw [fetch_usgs, h]
    cases raws with
    | nil => rfl
    | cons a l => rfl
  · intro r _
    refine ⟨?_, ?_, ?_, ?_⟩
    · intro hm; simp [normalizeRow, coerceFillZero, hm]
    · intro q hm; simp [normalizeRow, coerceFillZero, hm]
    · intro hd; simp [normalizeRow, coerceFillZero, hd]
    · intro q hd; simp [normalizeRow, coerceFillZero, hd]

/-- Witness for C3 at a one-feature feed whose `mag` is the non-numeric
string `"abc"` (coerced to 0.0) and whose depth is the numeric string
`"7.5"` (coerced to 7.5). -/
theorem fetch_usgs_coercion_witness :
    fetch_usgs [sampleFeature] = .ok ([sampleRaw].map normalizeRow)
    ∧ ∀ r ∈ [sampleRaw],
        (toNumericCoerce r.mag = none → (normalizeRow r).mag = 0)
        ∧ (∀ q, toNumericCoerce r.mag = some q → (normalizeRow r).mag = q)
        ∧ (toNumericCoerce r.depth_km = none → (normalizeRow r).depth_km = 0)
        ∧ (∀ q, toNumericCoerce r.depth_km = some q → (normalizeRow r).depth_km = q) :=
  fetch_usgs_coercion [sampleFeature] [sampleRaw] (by decide)

/-! ## C5: empty-store short circuits -/

/-- C5: with an empty store, the Transform action only emits the
informational message and returns the store unchanged (still empty), the
Visualize section renders the informational message instead of charts, and
the Run Agents action only emits the informational message with no agent
output. -/
theorem empty_store_short_circuits (d : DF) (s : List Row)
    (hd : dfEmpty d = true) (hs : s = []) :
    runTransformAction d = (d, .info "Store is empty. Fetch events first.")
    ∧ visualizeSection d = .infoMsg "No events to visualize. Fetch and transform events first."
    ∧ runAgentsAction s = .inl (.info "No data to analyze. Fetch & transform first.") := by
  subst hs
  refine ⟨?_, ?_, rfl⟩
  · simp [runTransformAction, hd]
  · simp [visualizeSection, hd]

/-- Witness for C5 at the freshly initialized empty store. -/
theorem empty_store_short_circuits_witness :
    runTransformAction [] = ([], .info "Store is empty. Fetch events first.")
    ∧ visualizeSection [] = .infoMsg "No events to visualize. Fetch and transform events first."
    ∧ runAgentsAction [] = .inl (.info "No data to analyze. Fetch & transform first.") :=
  empty_store_short_circuits [] [] rfl rfl

/-! ## C6: fetch failure leaves the state unchanged -/

/-- C6: whenever the network call or the normalization inside the fetch
action raises (the `Except` pipeline produces an error), the handler shows
the exception message as an error string and leaves the session store and
the last-fetch timestamp exactly as they were. -/
theorem fetch_error_leaves_state (store : List Row) (lf : Option ℚ) (now : ℚ)
    (net : Except String (List JVal)) (e : String)
    (h : net.bind fetch_usgs = .error e) :
    extractLoadStep store lf now net = (store, lf, .error ("Fetch failed: " ++ e)) := by
  simp [extractLoadStep, h]

/-- Witness for C6: a feed whose single feature is `null` makes the
normalization raise (`None.get` → `AttributeError`), and the state is kept. -/
theorem fetch_error_leaves_state_witness :
    extractLoadStep [rowA] (some 0) 5 (.ok [JVal.null])
      = ([rowA], some 0, .error ("Fetch failed: " ++ "AttributeError")) :=
  fetch_error_leaves_state [rowA] (some 0) 5 (.ok [JVal.null]) "AttributeError" (by decide)

/-! ## Lemmas about dataframe columns -/

theorem getCol_cons (k : String) (vs : List PVal) (l : DF) (c : String) :
    getCol ((k, vs) :: l) c = if c = k then some vs else getCol l c := by
  by_cases h : c = k
  · simp [getCol, List.lookup, h]
  · simp [getCol, List.lookup, h, beq_eq_false_iff_ne.mpr h]

theorem getCol_append (l1 l2 : DF) (c : String) :
    getCol (l1 ++ l2) c
      = (match getCol l1 c with
         | some v => some v
         | none => getCol l2 c) := by
  induction l1 with
  | nil => simp [getCol]
  | cons p l ih =>
    rcases p with ⟨k, vs⟩
    by_cases h : c = k <;> simp [getCol_cons, h, ih]

theorem mem_of_getCol_eq_some {df : DF} {c : String} {vs : List PVal}
    (h : getCol df c = some vs) : (c, vs) ∈ df := by
  induction df with
  | nil => simp [getCol] at h
  | cons p l ih =>
    rcases p with ⟨k, ws⟩
    by_cases hk : c = k
    · rw [getCol_cons, if_pos hk] at h
      subst hk
      injection h with h
      subst h
      exact List.mem_cons_self _ _
    · rw [getCol_cons, if_neg hk] at h
      exact List.mem_cons_of_mem _ (ih h)

theorem getCol_isSome_of_mem_keys {df : DF} {c : String}
    (h : c ∈ df.map Prod.fst) : ∃ vs, getCol df c = some vs := by
  induction df with
  | nil => simp at h
  | cons p l ih =>
    rcases p with ⟨k, ws⟩
    rw [List.map_cons] at h
    by_cases hk : c = k
    · exact ⟨ws, by rw [getCol_cons, if_pos hk]⟩
    · rcases List.mem_cons.mp h with h' | h'
      · exact absurd h' hk
      · rw [getCol_cons, if_neg hk]
        exact ih h' 

theorem setCol_of_not_mem (df : DF) (name : String) (vs : List PVal)
    (h : name ∉ df.map Prod.fst) : setCol df name vs = df ++ [(name, vs)] := by
  have hany : df.any (fun p => decide (p.1 = name)) = false := by
    rw [List.any_eq_false]
    intro p hp
    simp only [decide_eq_true_eq]
    intro hc
    exact h (List.mem_map.mpr ⟨p, hp, hc⟩)
  simp [setCol, hany]

theorem getCol_append_singleton_ne (df : DF) (n1 c : String) (vs : List PVal)
    (h : c ≠ n1) : getCol (df ++ [(n1, vs)]) c = getCol df c := by
  rw [getCol_append]
  cases hgc : getCol df c with
  | some v => rfl
  | none => simp [getCol_cons, h, getCol]

/-! ## C7: frame effect of the Transform step -/

/-- C7: on a non-empty store that does not yet carry the derived columns, a
successful Transform adds exactly the columns `hour_utc`, `mag_bucket` and
`depth_bucket` (in this order, on the right), leaves every pre-existing
column — hence every pre-existing cell value and the set of rows — exactly
as it was, and preserves the row count of every column. -/
theorem transform_frame_effect (df df' : DF) (n : Nat)
    (_hne : dfEmpty df = false)
    (hfresh : "hour_utc" ∉ df.map Prod.fst ∧ "mag_bucket" ∉ df.map Prod.fst
              ∧ "depth_bucket" ∉ df.map Prod.fst)
    (hrect : Rectangular df n)
    (hok : transformCols df = .ok df') :
    df'.map Prod.fst = df.map Prod.fst ++ ["hour_utc", "mag_bucket", "depth_bucket"]
    ∧ (∀ c ∈ df.map Prod.fst, getCol df' c = getCol df c)
    ∧ Rectangular df' n := by
  obtain ⟨hf1, hf2, hf3⟩ := hfresh
  simp only [transformCols] at hok
  cases hts : getCol df "time_utc" with
  | none =>
    simp only [hts] at hok
    exact Except.noConfusion hok
  | some ts =>
    simp only [hts] at hok
    rw [setCol_of_not_mem df "hour_utc" (ts.map hourCell) hf1] at hok
    rw [getCol_append_singleton_ne df "hour_utc" "mag" (ts.map hourCell)
        (by decide)] at hok
    cases hms : getCol df "mag" with
    | none =>
      simp only [hms] at hok
      exact Except.noConfusion hok
    | some ms =>
      simp only [hms] at hok
      have hf2' : "mag_bucket"
          ∉ (df ++ [("hour_utc", ts.map hourCell)]).map Prod.fst := by
        simp [hf2]
      rw [setCol_of_not_mem _ "mag_bucket" (ms.map magBucketCell) hf2'] at hok
      rw [getCol_append_singleton_ne _ "mag_bucket" "depth_km" _ (by decide),
          getCol_append_singleton_ne _ "hour_utc" "depth_km" _ (by decide)] at hok
      cases hds : getCol df "depth_km" with
      | none =>
        simp only [hds] at hok
        exact Except.noConfusion hok
      | some ds =>
        simp only [hds] at hok
        have hf3' : "depth_bucket"
            ∉ ((df ++ [("hour_utc", ts.map hourCell)])
                ++ [("mag_bucket", ms.map magBucketCell)]).map Prod.fst := by
          simp [hf3]
        rw [setCol_of_not_mem _ "depth_bucket" (ds.map depthBucketCell) hf3'] at hok
        injection hok with hok
        subst hok
        refine ⟨by simp, ?_, ?_⟩
        · intro c hc
          have hc1 : c ≠ "hour_utc" := fun h => hf1 (h ▸ hc)
          have hc2 : c ≠ "mag_bucket" := fun h => hf2 (h ▸ hc)
          have hc3 : c ≠ "depth_bucket" := fun h => hf3 (h ▸ hc)
          rw [getCol_append_singleton_ne _ _ _ _ hc3,
              getCol_append_singleton_ne _ _ _ _ hc2,
              getCol_append_singleton_ne _ _ _ _ hc1]
        · intro p hp
          rcases List.mem_append.mp hp with hp | hp
          · rcases List.mem_append.mp hp with hp | hp
            · rcases List.mem_append.mp hp with hp | hp
              · exact hrect p hp
              · rcases List.mem_singleton.mp hp with rfl
                have := hrect _ (mem_of_getCol_eq_some hts)
                simpa using this
            · rcases List.mem_singleton.mp hp with rfl
              have := hrect _ (mem_of_getCol_eq_some hms)
              simpa using this
          · rcases List.mem_singleton.mp hp with rfl
            have := hrect _ (mem_of_getCol_eq_some hds)
            simpa using this

/-- Witness for C7 at the one-row sample store. -/
theorem transform_frame_effect_witness :
    sampleDFT.map Prod.fst
        = sampleDF.map Prod.fst ++ ["hour_utc", "mag_bucket", "depth_bucket"]
    ∧ (∀ c ∈ sampleDF.map Prod.fst, getCol sampleDFT c = getCol sampleDF c)
    ∧ Rectangular sampleDFT 1 :=
  transform_frame_effect sampleDF sampleDFT 1 (by rfl)
    ⟨by decide, by decide, by decide⟩ (by unfold Rectangular; decide) (by decide)

/-! ## Lemmas about the fold-based maximum -/

theorem foldl_max_mem (x : ℚ) (xs : List ℚ) : xs.foldl max x ∈ x :: xs := by
  induction xs generalizing x with
  | nil => simp
  | cons y ys ih =>
    simp only [List.foldl_cons]
    rcases List.mem_cons.mp (ih (max x y)) with h | h
    · rw [h]
      rcases max_choice x y with hxy | hxy <;> rw [hxy]
      · exact List.mem_cons_self _ _
      · exact List.mem_cons_of_mem _ (List.mem_cons_self _ _)
    · exact List.mem_cons_of_mem _ (List.mem_cons_of_mem _ h)

theorem le_foldl_max (x : ℚ) (xs : List ℚ) : ∀ a ∈ x :: xs, a ≤ xs.foldl max x := by
  induction xs generalizing x with
  | nil =>
    intro a ha
    rcases List.mem_singleton.mp ha with rfl
    exact le_refl _
  | cons y ys ih =>
    intro a ha
    simp only [List.foldl_cons]
    rcases List.mem_cons.mp ha with rfl | ha'
    · exact le_trans (le_max_left a y) (ih (max a y) _ (List.mem_cons_self _ _))
    · rcases List.mem_cons.mp ha' with rfl | ha''
      · exact le_trans (le_max_right x a) (ih (max x a) _ (List.mem_cons_self _ _))
      · exact ih (max x y) a (List.mem_cons_of_mem _ ha'')

theorem pdMax_mem (xs : List ℚ) (h : xs ≠ []) : pdMax xs ∈ xs := by
  cases xs with
  | nil => exact absurd rfl h
  | cons x l => exact foldl_max_mem x l

theorem le_pdMax (xs : List ℚ) (h : xs ≠ []) : ∀ a ∈ xs, a ≤ pdMax xs := by
  cases xs with
  | nil => exact absurd rfl h
  | cons x l => exact le_foldl_max x l

/-! ## C8: the analysis agent's statistics -/

/-- C8: for a store with at least one row, `analysis_agent` reports the
arithmetic mean (sum over count) of the `mag` column as the average, a
value that is a member of and an upper bound of the `mag` column as the
maximum, and returns as `strong` exactly the rows with `mag >= 5.0`; on an
empty store both statistics are reported as 0.0. -/
theorem analysis_agent_spec (df : List Row) (h : df ≠ []) :
    (analysis_agent df).2 = df.filter (fun r => decide (5 ≤ r.mag))
    ∧ (analysis_agent df).1
        = [.header,
           .summary df.length ((df.map Row.mag).sum / df.length)
             (pdMax (df.map Row.mag)),
           .strongCount (df.filter (fun r => decide (5 ≤ r.mag))).length]
    ∧ pdMax (df.map Row.mag) ∈ df.map Row.mag
    ∧ (∀ x ∈ df.map Row.mag, x ≤ pdMax (df.map Row.mag))
    ∧ (analysis_agent []).1 = [.header, .summary 0 0 0, .strongCount 0] := by
  have hmne : df.map Row.mag ≠ [] := by
    cases df with
    | nil => exact absurd rfl h
    | cons a l => simp
  have hlen : 0 < df.length := List.length_pos.mpr h
  refine ⟨rfl, ?_, pdMax_mem _ hmne, le_pdMax _ hmne, rfl⟩
  simp [analysis_agent, pdMean, hlen]

/-- Witness for C8 at a two-row store with magnitudes 6 and 2. -/
theorem analysis_agent_spec_witness :
    (analysis_agent [rowA, rowB]).2 = [rowA, rowB].filter (fun r => decide (5 ≤ r.mag))
    ∧ (analysis_agent [rowA, rowB]).1
        = [.header,
           .summary (List.length [rowA, rowB])
             (([rowA, rowB].map Row.mag).sum / (List.length [rowA, rowB]))
             (pdMax ([rowA, rowB].map Row.mag)),
           .strongCount (([rowA, rowB].filter (fun r => decide (5 ≤ r.mag))).length)]
    ∧ pdMax ([rowA, rowB].map Row.mag) ∈ [rowA, rowB].map Row.mag
    ∧ (∀ x ∈ [rowA, rowB].map Row.mag, x ≤ pdMax ([rowA, rowB].map Row.mag))
    ∧ (analysis_agent []).1 = [.header, .summary 0 0 0, .strongCount 0] :=
  analysis_agent_spec [rowA, rowB] (by simp)

/-! ## Lemmas about the descending sort of strategy_agent -/

theorem sortByMagDesc_head_max :
    ∀ l : List Row, l ≠ [] →
      ∃ top tl, sortByMagDesc l = top :: tl ∧ top ∈ l ∧ ∀ a ∈ l, a.mag ≤ top.mag := by
  intro l
  induction l with
  | nil => intro h; exact absurd rfl h
  | cons r rs ih =>
    intro _
    by_cases hrs : rs = []
    · subst hrs
      refine ⟨r, [], rfl, List.mem_cons_self _ _, ?_⟩
      intro a ha
      rcases List.mem_singleton.mp ha with rfl
      exact le_refl _
    · obtain ⟨t, tl, hsort, htmem, hbound⟩ := ih hrs
      simp only [sortByMagDesc, hsort]
      by_cases hle : t.mag ≤ r.mag
      · simp only [insertDesc, if_pos hle]
        refine ⟨r, t :: tl, rfl, List.mem_cons_self _ _, ?_⟩
        intro a ha
        rcases List.mem_cons.mp ha with rfl | ha'
        · exact le_refl _
        · exact le_trans (hbound a ha') hle
      · simp only [insertDesc, if_neg hle]
        refine ⟨t, insertDesc r tl, rfl, List.mem_cons_of_mem _ htmem, ?_⟩
        intro a ha
        rcases List.mem_cons.mp ha with rfl | ha'
        · exact le_of_lt (lt_of_not_le hle)
        · exact hbound a ha'

theorem alert_ne_monitor (s : String) : ("Alert for " ++ s) ≠ "Monitor" := by
  intro h
  have hl := congrArg String.length h
  rw [String.length_append] at hl
  have h1 : "Alert for ".length = 10 := by decide
  have h2 : "Monitor".length = 7 := by decide
  rw [h1, h2] at hl
  omega

/-! ## C9: the strategy agent's recommended action -/

/-- C9: `strategy_agent` recommends "Monitor" exactly when the strong set
is empty; otherwise the action is "Alert for <place>" where <place> renders
the `place` field of a strong row of maximal magnitude. -/
theorem strategy_agent_spec (strong : List Row) :
    ((strategy_agent strong).2 = "Monitor" ↔ strong = [])
    ∧ (strong ≠ [] →
        ∃ r ∈ strong, (∀ s ∈ strong, s.mag ≤ r.mag)
          ∧ (strategy_agent strong).2 = "Alert for " ++ pyShow r.place) := by
  by_cases h : strong = []
  · subst h
    exact ⟨by simp [strategy_agent], fun hc => absurd rfl hc⟩
  · obtain ⟨top, tl, hsort, htm, hb⟩ := sortByMagDesc_head_max strong h
    have hne : strong.isEmpty = false := by
      cases strong with
      | nil => exact absurd rfl h
      | cons _ _ => rfl
    have haction : (strategy_agent strong).2 = "Alert for " ++ pyShow top.place := by
      simp [strategy_agent, hne, hsort]
    refine ⟨?_, fun _ => ⟨top, htm, hb, haction⟩⟩
    constructor
    · intro hmon
      rw [haction] at hmon
      exact absurd hmon (alert_ne_monitor _)
    · intro hc
      exact absurd hc h

/-- Witness for C9: on the empty strong set the action is "Monitor", and on
a concrete two-row strong set the action alerts for a maximal-magnitude row. -/
theorem strategy_agent_spec_witness :
    (strategy_agent []).2 = "Monitor"
    ∧ ∃ r ∈ [rowA, rowC], (∀ s ∈ [rowA, rowC], Row.mag s ≤ Row.mag r)
        ∧ (strategy_agent [rowA, rowC]).2 = "Alert for " ++ pyShow r.place :=
  ⟨(strategy_agent_spec []).1.mpr rfl, (strategy_agent_spec [rowA, rowC]).2 (by simp)⟩

/-! ## C10: degenerate feed shapes in fetch_usgs row construction -/

/-- C10: the row construction of `fetch_usgs` degrades to None instead of
raising on the degenerate feed shapes: (a) a feature with no `properties`
key (and null geometry) yields a row whose property-derived fields and
coordinates are all None and whose `time_utc` is None; (b) a feature whose
`properties` are present but whose `time` is missing or equal to 0 (the
epoch) — and whose geometry is null — yields `time_utc = None`, None
coordinates, and the looked-up property fields; (c) a coordinate list
shorter than three elements yields None in exactly the missing positions. -/
theorem fetch_degenerate_shapes :
    (∀ fid : JVal,
      rowOfFeature (.obj [("id", fid), ("geometry", .null)])
        = .ok { id := fid, time_utc := none, place := .null, mag := .null,
                url := .null, status := .null, tsunami := .null,
                lon := .null, lat := .null, depth_km := .null })
    ∧ (∀ (fid : JVal) (pkvs : List (String × JVal)),
        ((pkvs.reverse.lookup "time").getD .null = .null
          ∨ (pkvs.reverse.lookup "time").getD .null = .num 0) →
        rowOfFeature (.obj [("id", fid), ("properties", .obj pkvs), ("geometry", .null)])
          = .ok { id := fid, time_utc := none,
                  place := (pkvs.reverse.lookup "place").getD .null,
                  mag := (pkvs.reverse.lookup "mag").getD .null,
                  url := (pkvs.reverse.lookup "url").getD .null,
                  status := (pkvs.reverse.lookup "status").getD .null,
                  tsunami := (pkvs.reverse.lookup "tsunami").getD .null,
                  lon := .null, lat := .null, depth_km := .null })
    ∧ (∀ (fid : JVal) (cs : List JVal), cs.length < 3 →
        ∃ r, rowOfFeature
              (.obj [("id", fid), ("geometry", .obj [("coordinates", .arr cs)])])
            = .ok r
          ∧ r.depth_km = .null
          ∧ (cs.length ≤ 1 → r.lat = .null)
          ∧ (cs.length = 0 → r.lon = .null)) := by
  refine ⟨?_, ?_, ?_⟩
  · intro fid
    rfl
  · intro fid pkvs h
    rcases h with h | h <;>
      simp [rowOfFeature, pyGet, pyLen, pyIndex, bind, Except.bind, List.lookup, h,
            JVal.truthy] <;>
      rfl
  · intro fid cs hlen
    match cs, hlen with
    | [], _ => exact ⟨_, rfl, rfl, fun _ => rfl, fun _ => rfl⟩
    | [a], _ =>
      exact ⟨_, rfl, rfl, fun _ => rfl, fun hc => absurd hc (by simp)⟩
    | [a, b], _ =>
      exact ⟨_, rfl, rfl, fun hc => absurd hc (by simp), fun hc => absurd hc (by simp)⟩

/-- Witness for C10 at concrete degenerate features. -/
theorem fetch_degenerate_shapes_witness :
    rowOfFeature (.obj [("id", .str "w"), ("geometry", .null)])
      = .ok { id := .str "w", time_utc := none, place := .null, mag := .null,
              url := .null, status := .null, tsunami := .null,
              lon := .null, lat := .null, depth_km := .null }
    ∧ rowOfFeature (.obj [("id", .str "w"),
          ("properties", .obj [("time", .num 0), ("place", .str "P")]),
          ("geometry", .null)])
      = .ok { id := .str "w", time_utc := none,
              place := ([("time", JVal.num 0), ("place", JVal.str "P")].reverse.lookup "place").getD .null,
              mag := ([("time", JVal.num 0), ("place", JVal.str "P")].reverse.lookup "mag").getD .null,
              url := ([("time", JVal.num 0), ("place", JVal.str "P")].reverse.lookup "url").getD .null,
              status := ([("time", JVal.num 0), ("place", JVal.str "P")].reverse.lookup "status").getD .null,
              tsunami := ([("time", JVal.num 0), ("place", JVal.str "P")].reverse.lookup "tsunami").getD .null,
              lon := .null, lat := .null, depth_km := .null }
    ∧ ∃ r, rowOfFeature (.obj [("id", .str "w"),
            ("geometry", .obj [("coordinates", .arr [.num 7])])])
          = .ok r
        ∧ r.depth_km = .null
        ∧ ([JVal.num 7].length ≤ 1 → r.lat = .null)
        ∧ ([JVal.num 7].length = 0 → r.lon = .null) :=
  ⟨fetch_degenerate_shapes.1 (.str "w"),
   fetch_degenerate_shapes.2.1 (.str "w") [("time", .num 0), ("place", .str "P")]
     (Or.inr (by decide)),
   fetch_degenerate_shapes.2.2 (.str "w") [.num 7] (by decide)⟩
